import Mathlib

/-!
MeshPersonVisual (person_visual.cpp)

A shallow embedding of `MeshPersonVisual` from
`framesoft_tracking_rviz_plugin/src/visuals/person_visual.cpp`.

The class is glue over the Ogre scene graph.  The engine objects it touches are
records holding exactly the attributes this file reads or writes; numbers are
rationals (exact arithmetic), pointers are `Option` values (`none` is NULL), and
calls into the engine are appended to a call log.
-/

namespace framesoft_tracking_rviz_plugin

/-! ## Engine objects -/

/-- An `Ogre::AnimationState`: its animation name, the loop and enabled flags, and
the time handed to it through `addTime`. -/
structure AnimationState where
  animationName : String
  loop : Bool
  enabled : Bool
  timePosition : ℚ
deriving DecidableEq

/-- The call `addTime(offset)`: the state's time moves by `offset`.  (How the engine
folds the position into the animation's length is outside this file.) -/
def AnimationState.addTime (s : AnimationState) (offset : ℚ) : AnimationState :=
  { s with timePosition := s.timePosition + offset }

/-- The calls `setLoop(true); setEnabled(true)` of lines 172-173. -/
def AnimationState.setLoopEnabled (s : AnimationState) : AnimationState :=
  { s with loop := true, enabled := true }

/-- An `Ogre::ColourValue`. -/
structure ColourValue where
  r : ℚ
  g : ℚ
  b : ℚ
  a : ℚ
deriving DecidableEq

/-- The values of `Ogre::SceneBlendType`. -/
inductive SceneBlendType where
  | SBT_TRANSPARENT_ALPHA
  | SBT_TRANSPARENT_COLOUR
  | SBT_ADD
  | SBT_MODULATE
  | SBT_REPLACE
deriving DecidableEq

/-- The attributes of an `Ogre::Technique` written by this file. -/
structure Technique where
  ambient : ℚ × ℚ × ℚ
  diffuse : ℚ × ℚ × ℚ × ℚ
  sceneBlending : SceneBlendType
  depthWriteEnabled : Bool
  lightingEnabled : Bool
deriving DecidableEq

/-- An `Ogre::Material`: its resource name, the receive-shadows flag and technique 0. -/
structure Material where
  name : String
  receiveShadows : Bool
  technique0 : Technique
deriving DecidableEq

/-- An `Ogre::MaterialPtr`; `none` is the null pointer (`isNull()`). -/
abbrev MaterialPtr := Option Material

/-- The `Ogre::Entity` behind `entity_`: its name and the result of
`getAllAnimationStates()`, `none` for NULL, otherwise the states in iteration order. -/
structure Entity where
  name : String
  allAnimationStates : Option (List AnimationState)
deriving DecidableEq

/-- The comparison of the keys of an `Ogre::AnimationStateSet` (`std::less` on strings):
lexicographic by character code, a proper beginning coming first. -/
def keyLess : List Char → List Char → Bool
  | _, [] => false
  | [], _ :: _ => true
  | a :: as, b :: bs => decide (a.toNat < b.toNat) || (a.toNat == b.toNat && keyLess as bs)

/-- The iteration order of an `Ogre::AnimationStateSet`: the set is a map keyed by
animation name, so its iterator visits the states by ascending name, no name twice. -/
def NameOrdered (states : List AnimationState) : Prop :=
  states.Pairwise fun a b => keyLess a.animationName.data b.animationName.data = true

instance (states : List AnimationState) : Decidable (NameOrdered states) :=
  inferInstanceAs (Decidable (List.Pairwise _ states))

/-- The data members of `MeshPersonVisual` used in this file.  `m_animationState`
points into the entity's state set and is held as the position of the state in
iteration order; `materials_` lists the `std::set` in iteration order. -/
structure MeshPersonVisual where
  entity_ : Entity
  m_animationState : Option Nat
  m_walkingSpeed : ℚ
  materials_ : List MaterialPtr
  m_childSceneNode : String
deriving DecidableEq

namespace MeshPersonVisual

/-! ## setAnimationState (lines 163-183) -/

/-- The `while` loop of lines 168-177 over the states still to be visited: at the
first state whose name equals the request, or at the first state at all when the
request is empty, loop and enabled are set and the state's position (counted from the
head of the list) is returned with the updated list.  `none`: the iterator ran out. -/
def selectLoop (nameOfAnimationState : String) :
    List AnimationState → Option (Nat × List AnimationState)
  | [] => none
  | animationState :: rest =>
    if animationState.animationName = nameOfAnimationState ∨ nameOfAnimationState = "" then
      some (0, animationState.setLoopEnabled :: rest)
    else
      match selectLoop nameOfAnimationState rest with
      | none => none
      | some (i, rest') => some (i + 1, animationState :: rest')

/-- The method `setAnimationState`.  Each activation of the function spends one unit of
`fuel`; `none` means the activations did not finish within the fuel given. -/
def setAnimationState : Nat → String → MeshPersonVisual → Option MeshPersonVisual
  | 0, _, _ => none
  | fuel + 1, nameOfAnimationState, v =>
    match v.entity_.allAnimationStates with
    | none => some v
    | some animationStates =>
      match selectLoop nameOfAnimationState animationStates with
      | some (i, animationStates') =>
        some { v with
          entity_ := { v.entity_ with allAnimationStates := some animationStates' }
          m_animationState := some i }
      | none => setAnimationState fuel "" v

/-! ## setWalkingSpeed, update (lines 185-194) -/

/-- The method `setWalkingSpeed`. -/
def setWalkingSpeed (walkingSpeed : ℚ) (v : MeshPersonVisual) : MeshPersonVisual :=
  { v with m_walkingSpeed := walkingSpeed }

/-- The method `update`: when `m_animationState` is not NULL the state it points to
receives `addTime(0.7 * deltaTime * m_walkingSpeed)`. -/
def update (deltaTime : ℚ) (v : MeshPersonVisual) : MeshPersonVisual :=
  match v.m_animationState with
  | none => v
  | some i =>
    { v with
      entity_ := { v.entity_ with
        allAnimationStates := v.entity_.allAnimationStates.map fun states =>
          states.modify (fun s => s.addTime (7 / 10 * deltaTime * v.m_walkingSpeed)) i } }

/-- The animation state `m_animationState` points to, when there is one. -/
def selectedState (v : MeshPersonVisual) : Option AnimationState :=
  match v.m_animationState, v.entity_.allAnimationStates with
  | some i, some states => states[i]?
  | _, _ => none

/-! ## setColor (lines 135-161) -/

/-- Lines 136-148: the blend type and depth-write flag chosen from the alpha value. -/
def blendingFor (c : ColourValue) : SceneBlendType × Bool :=
  if c.a < 9998 / 10000 then (SceneBlendType.SBT_TRANSPARENT_ALPHA, false)
  else (SceneBlendType.SBT_REPLACE, true)

/-- Lines 155-159: the five setter calls on one technique. -/
def colourTechnique (c : ColourValue) (blending : SceneBlendType) (depth_write : Bool)
    (technique : Technique) : Technique :=
  { technique with
    ambient := (c.r * (1 / 2), c.g * (1 / 2), c.b * (1 / 2))
    diffuse := (c.r, c.g, c.b, c.a)
    sceneBlending := blending
    depthWriteEnabled := depth_write
    lightingEnabled := true }

/-- The `for` loop of lines 151-160.  Every entry is dereferenced without a test, so a
null entry ends the run in failure (`none`). -/
def setColorLoop (c : ColourValue) (blending : SceneBlendType) (depth_write : Bool) :
    List MaterialPtr → Option (List MaterialPtr)
  | [] => some []
  | none :: _ => none
  | some material :: rest =>
    match setColorLoop c blending depth_write rest with
    | none => none
    | some rest' =>
      some (some { material with
        technique0 := colourTechnique c blending depth_write material.technique0 } :: rest')

/-- The method `setColor`. -/
def setColor (c : ColourValue) (v : MeshPersonVisual) : Option MeshPersonVisual :=
  match setColorLoop c (blendingFor c).1 (blendingFor c).2 v.materials_ with
  | none => none
  | some materials => some { v with materials_ := materials }

/-- One material after the body of the colouring loop. -/
def coloured (c : ColourValue) (blending : SceneBlendType) (depth_write : Bool)
    (material : Material) : Material :=
  { material with technique0 := colourTechnique c blending depth_write material.technique0 }

end MeshPersonVisual

/-! ## The engine singletons -/

/-- An `Ogre::ResourceLoadingListener`: the helper class of lines 23-58, built from its
parent path, or a listener some other code installed. -/
inductive ResourceLoadingListener where
  | rosPackagePath (parentPath : String)
  | foreign (id : Nat)
deriving DecidableEq

/-- The engine calls issued by the constructor and the destructor that reach the
resource group manager, the mesh loader, the scene manager or the material manager. -/
inductive EngineCall where
  | setLoadingListener (listener : Option ResourceLoadingListener)
  | loadMeshFromResource (resource : String)
  | createEntity (id : String) (mesh : String)
  | createMaterial (name : String) (group : String)
  | entitySetMaterial (entity : String) (material : String)
  | destroyEntity (id : String)
  | materialUnload (name : String)
  | materialManagerRemove (name : String)
  | destroySceneNode (name : String)
deriving DecidableEq

/-- The process-wide state the class touches: the loading listener of the
`ResourceGroupManager` singleton, the function-static `count` of line 84, the resource
names held by the `MaterialManager` singleton, and the calls issued so far, oldest
first. -/
structure Engine where
  loadingListener : Option ResourceLoadingListener
  count : Nat
  materialNames : List String
  calls : List EngineCall
deriving DecidableEq

/-- Issue one engine call: it is logged, and the singletons change as the call says. -/
def Engine.issue (c : EngineCall) (e : Engine) : Engine :=
  let logged : Engine := { e with calls := e.calls ++ [c] }
  match c with
  | EngineCall.setLoadingListener l => { logged with loadingListener := l }
  | EngineCall.createMaterial name _ => { logged with materialNames := e.materialNames ++ [name] }
  | EngineCall.materialManagerRemove name =>
    { logged with materialNames := e.materialNames.filter fun n => n ≠ name }
  | _ => logged

/-- The listener installed when each call of a call sequence is issued, given the
listener installed before the first one. -/
def installedAt : Option ResourceLoadingListener → List EngineCall →
    List (Option ResourceLoadingListener × EngineCall)
  | _, [] => []
  | l, EngineCall.setLoadingListener l' :: rest =>
    (l, EngineCall.setLoadingListener l') :: installedAt l' rest
  | l, c :: rest => (l, c) :: installedAt l rest

/-! ## Names (lines 84-87, 96-97) -/

/-- The character of one decimal digit. -/
def digitChar (d : Nat) : Char := Char.ofNat (48 + d)

/-- The digit a digit character stands for. -/
def charDigit (c : Char) : Nat := c.toNat - 48

/-- The text `operator<<` writes for a `size_t`: decimal, most significant digit first,
no padding, `0` for zero. -/
def decimal (n : Nat) : String :=
  if n = 0 then "0" else String.mk ((Nat.digits 10 n).reverse.map digitChar)

/-- The string `id` of line 87 for the counter value `count`. -/
def entityName (count : Nat) : String := "mesh_person_visual" ++ decimal count

/-- The contents of the stream at line 97 for the counter value `count`. -/
def materialName (count : Nat) : String := entityName count ++ "Material"

/-- The mesh resource of line 67; `ROS_PACKAGE_NAME` is a build-time macro, taken as a
parameter. -/
def meshResource (rosPackageName : String) : String :=
  "package://" ++ rosPackageName ++ "/media/animated_walking_man.mesh"

/-- The value of `model_path.parent_path()` (line 71): the resource without its last
component. -/
def parentPath (rosPackageName : String) : String :=
  "package://" ++ rosPackageName ++ "/media"

namespace MeshPersonVisual

/-! ## Constructor (lines 62-114) -/

/-- Lines 69-80: install the package-path listener, load the mesh, put the previous
listener back.  `meshIsNull` is what `loadMeshFromResource(...).isNull()` answers; the
result pairs the engine with `loadFailed`. -/
def loadMesh (rosPackageName : String) (meshIsNull : Bool) (e : Engine) : Engine × Bool :=
  let newListener := ResourceLoadingListener.rosPackagePath (parentPath rosPackageName)
  let oldListener := e.loadingListener
  let e1 := e.issue (EngineCall.setLoadingListener (some newListener))
  let e2 := e1.issue (EngineCall.loadMeshFromResource (meshResource rosPackageName))
  let loadFailed := meshIsNull
  let e3 := e2.issue (EngineCall.setLoadingListener oldListener)
  (e3, loadFailed)

/-- The call `materials_.insert(p)` on the set listed in iteration order. -/
def insertMaterial (p : MaterialPtr) (materials : List MaterialPtr) : List MaterialPtr :=
  if p ∈ materials then materials else materials ++ [p]

/-- The constructor.  Taken from outside: the package name, the answer of the mesh
loader, the animation states the created entity has (`getAllAnimationStates()`), the
name of the child scene node, and technique 0 of a freshly created material.  The
scene-node placement calls (lines 64-65, 90, 104-113) touch nothing kept here.  `fuel`
is handed to `setAnimationState`; `none` means that call did not finish. -/
def construct (fuel : Nat) (rosPackageName : String) (meshIsNull : Bool)
    (meshAnimationStates : Option (List AnimationState)) (childSceneNode : String)
    (createdTechnique : Technique) (e : Engine) : Option (MeshPersonVisual × Engine) :=
  let e1 := (loadMesh rosPackageName meshIsNull e).1
  let id := entityName e1.count
  let streamed := materialName e1.count
  let e2 : Engine := { e1 with count := (e1.count + 1) % 2 ^ 64 }
  let e3 := e2.issue (EngineCall.createEntity id (meshResource rosPackageName))
  let v0 : MeshPersonVisual :=
    { entity_ := { name := id, allAnimationStates := meshAnimationStates }
      m_animationState := none
      m_walkingSpeed := 1
      materials_ := []
      m_childSceneNode := childSceneNode }
  match setAnimationState fuel "" v0 with
  | none => none
  | some v1 =>
    let e4 := e3.issue (EngineCall.createMaterial streamed "rviz")
    let default_material : Material :=
      { name := streamed
        receiveShadows := false
        technique0 := { createdTechnique with
          lightingEnabled := true
          ambient := (1 / 2, 1 / 2, 1 / 2) } }
    let v2 : MeshPersonVisual :=
      { v1 with materials_ := insertMaterial (some default_material) v1.materials_ }
    let e5 := e4.issue (EngineCall.entitySetMaterial id streamed)
    some (v2, e5)

/-! ## Destructor (lines 116-133) -/

/-- The `for` loop of lines 121-129: a null entry is passed over, any other material is
unloaded and removed from the material manager by its name. -/
def destroyMaterials : List MaterialPtr → Engine → Engine
  | [], e => e
  | none :: rest, e => destroyMaterials rest e
  | some material :: rest, e =>
    destroyMaterials rest
      ((e.issue (EngineCall.materialUnload material.name)).issue
        (EngineCall.materialManagerRemove material.name))

/-- The destructor: the visual as it stands at the closing brace, and the engine. -/
def destruct (v : MeshPersonVisual) (e : Engine) : MeshPersonVisual × Engine :=
  let e1 := e.issue (EngineCall.destroyEntity v.entity_.name)
  let e2 := destroyMaterials v.materials_ e1
  let v1 : MeshPersonVisual := { v with materials_ := [] }
  let e3 := e2.issue (EngineCall.destroySceneNode v1.m_childSceneNode)
  (v1, e3)

/-- The calls the destructor issues for one entry of the material set. -/
def materialCalls : MaterialPtr → List EngineCall
  | none => []
  | some material =>
    [EngineCall.materialUnload material.name, EngineCall.materialManagerRemove material.name]

end MeshPersonVisual

/-! ## Sample data -/

/-- A state named `walk`, not yet looping or enabled. -/
def walkState : AnimationState :=
  { animationName := "walk", loop := false, enabled := false, timePosition := 0 }

/-- A state whose name is the empty string. -/
def unnamedState : AnimationState :=
  { animationName := "", loop := false, enabled := false, timePosition := 0 }

/-- A state named `idle`. -/
def idleState : AnimationState :=
  { animationName := "idle", loop := false, enabled := false, timePosition := 3 }

/-- Technique 0 as the material manager hands it out. -/
def sampleTechnique : Technique :=
  { ambient := (1, 1, 1), diffuse := (1, 1, 1, 1),
    sceneBlending := SceneBlendType.SBT_REPLACE,
    depthWriteEnabled := true, lightingEnabled := true }

/-- A material named `m0`. -/
def sampleMaterial : Material :=
  { name := "m0", receiveShadows := false, technique0 := sampleTechnique }

/-- A second material, `m1`, transparent with depth writing on. -/
def otherMaterial : Material :=
  { name := "m1", receiveShadows := true,
    technique0 := { sampleTechnique with
      sceneBlending := SceneBlendType.SBT_TRANSPARENT_ALPHA, lightingEnabled := false } }

/-- A visual over the given animation states and materials, nothing selected. -/
def sampleVisual (states : Option (List AnimationState)) (materials : List MaterialPtr) :
    MeshPersonVisual :=
  { entity_ := { name := "mesh_person_visual0", allAnimationStates := states }
    m_animationState := none
    m_walkingSpeed := 1
    materials_ := materials
    m_childSceneNode := "node0" }

/-- The process state before any construction: no listener installed, `count` at its
initial value 0 (line 84), no material registered, no call issued. -/
def freshEngine : Engine :=
  { loadingListener := none, count := 0, materialNames := [], calls := [] }

/-! ## Facts about the lookup loop -/

namespace MeshPersonVisual

/-- The loop runs out exactly when no state matches the request. -/
lemma selectLoop_eq_none_iff (n : String) (states : List AnimationState) :
    selectLoop n states = none ↔ ∀ s ∈ states, ¬ (s.animationName = n ∨ n = "") := by
  induction states with
  | nil => simp [selectLoop]
  | cons s rest ih =>
    by_cases h : s.animationName = n ∨ n = ""
    · simp only [selectLoop, if_pos h, List.mem_cons, forall_eq_or_imp]
      exact ⟨fun hc => by simp at hc, fun hall => absurd h hall.1⟩
    · have hrest : (match selectLoop n rest with
          | none => (none : Option (Nat × List AnimationState))
          | some (i, rest') => some (i + 1, s :: rest')) = none ↔ selectLoop n rest = none := by
        cases hr : selectLoop n rest with
        | none => simp
        | some p => simp
      simp only [selectLoop, if_neg h, hrest, ih, List.mem_cons, forall_eq_or_imp]
      exact ⟨fun hall => ⟨h, hall⟩, fun hall => hall.2⟩

/-- The loop stops at the first state that matches the request and changes only it. -/
lemma selectLoop_first (n : String) :
    ∀ (states : List AnimationState) (i : Nat) (s : AnimationState),
      states[i]? = some s → (s.animationName = n ∨ n = "") →
      (∀ j s', j < i → states[j]? = some s' → ¬ (s'.animationName = n ∨ n = "")) →
      selectLoop n states = some (i, states.set i s.setLoopEnabled) := by
  intro states
  induction states with
  | nil => intro i s h; simp at h
  | cons a rest ih =>
    intro i s hi hm hfirst
    cases i with
    | zero =>
      simp only [List.getElem?_cons_zero, Option.some.injEq] at hi
      subst hi
      simp [selectLoop, hm]
    | succ k =>
      have ha : ¬ (a.animationName = n ∨ n = "") := hfirst 0 a (Nat.succ_pos k) (by simp)
      have hk : rest[k]? = some s := by simpa using hi
      have hrest := ih k s hk hm (fun j s' hj hs' =>
        hfirst (j + 1) s' (Nat.succ_lt_succ hj) (by simpa using hs'))
      simp [selectLoop, ha, hrest]

/-- On a set that is not NULL and not empty, the empty request selects the first
state within one activation. -/
lemma setAnimationState_empty_name (v : MeshPersonVisual) (s : AnimationState)
    (rest : List AnimationState) (fuel : Nat)
    (hs : v.entity_.allAnimationStates = some (s :: rest)) :
    setAnimationState (fuel + 1) "" v =
      some { v with
        entity_ := { v.entity_ with
          allAnimationStates := some ({ s with loop := true, enabled := true } :: rest) }
        m_animationState := some 0 } := by
  simp [setAnimationState, hs, selectLoop, AnimationState.setLoopEnabled]

/-- On a NULL state set the method returns at once and changes nothing. -/
lemma setAnimationState_null (v : MeshPersonVisual) (n : String) (fuel : Nat)
    (hs : v.entity_.allAnimationStates = none) :
    setAnimationState (fuel + 1) n v = some v := by
  simp [setAnimationState, hs]

/-! ## Claims about setAnimationState -/

/-- No key comes before the empty name. -/
lemma keyLess_nil_right (x : List Char) : keyLess x [] = false := by
  cases x <;> rfl

/-- In a name-ordered set a state named by the empty string is the first state. -/
lemma NameOrdered.empty_name_first (states : List AnimationState) (hord : NameOrdered states)
    (i : Nat) (s : AnimationState) (hi : states[i]? = some s) (hname : s.animationName = "") :
    i = 0 := by
  cases states with
  | nil => simp at hi
  | cons a rest =>
    cases i with
    | zero => rfl
    | succ k =>
      have hmem : s ∈ rest := List.getElem?_mem (by simpa using hi)
      have hlt := (List.pairwise_cons.1 hord).1 s hmem
      rw [hname] at hlt
      have hnil : keyLess a.animationName.data ("" : String).data = false :=
        keyLess_nil_right _
      rw [hnil] at hlt
      cases hlt

/-- C5: for a state set that is not NULL, iterated in the order of its name-keyed map:
if the state at position `i` is the first one named `n`, or if `n` is empty and `i` is
the first position of a non-empty set, then `setAnimationState(n)` returns within one
activation, `m_animationState` points to position `i`, that state has loop and enabled
set to true with its name and time kept, every other state of the set is as before, and
the other members of the visual are unchanged. -/
theorem setAnimationState_selects (v : MeshPersonVisual) (states : List AnimationState)
    (n : String) (fuel i : Nat) (s : AnimationState)
    (hs : v.entity_.allAnimationStates = some states)
    (hord : NameOrdered states)
    (hi : states[i]? = some s)
    (hsel : (s.animationName = n ∧
        ∀ j s', j < i → states[j]? = some s' → s'.animationName ≠ n) ∨ (n = "" ∧ i = 0)) :
    setAnimationState (fuel + 1) n v =
        some { v with
          entity_ := { v.entity_ with
            allAnimationStates := some (states.set i { s with loop := true, enabled := true }) }
          m_animationState := some i } ∧
      (states.set i { s with loop := true, enabled := true }).length = states.length ∧
      (states.set i { s with loop := true, enabled := true })[i]? =
        some { s with loop := true, enabled := true } ∧
      ∀ j, j ≠ i →
        (states.set i { s with loop := true, enabled := true })[j]? = states[j]? := by
  have hlt : i < states.length := by
    rcases Nat.lt_or_ge i states.length with h | h
    · exact h
    · rw [List.getElem?_eq_none h] at hi; cases hi
  refine ⟨?_, by simp, by simp [List.getElem?_set, hlt], fun j hj => ?_⟩
  · have hloop : selectLoop n states = some (i, states.set i s.setLoopEnabled) := by
      have hzero : n = "" → i = 0 → selectLoop n states =
          some (i, states.set i s.setLoopEnabled) := by
        intro hn hi0
        subst hi0
        exact selectLoop_first n states 0 s hi (Or.inr hn)
          (fun j s' hj _ => absurd hj (Nat.not_lt_zero j))
      rcases hsel with ⟨hname, hfirst⟩ | ⟨hn, hi0⟩
      · by_cases hn : n = ""
        · exact hzero hn
            (NameOrdered.empty_name_first states hord i s hi (hname.trans hn))
        · exact selectLoop_first n states i s hi (Or.inl hname)
            (fun j s' hj hs' hc => hc.elim (hfirst j s' hj hs') hn)
      · exact hzero hn hi0
    simp [setAnimationState, hs, hloop, AnimationState.setLoopEnabled]
  · simp [List.getElem?_set, Ne.symm hj]

/-- Witness for C5: in the set `idle, walk` the request `walk` selects position 1. -/
theorem setAnimationState_selects_witness :
    setAnimationState 1 "walk" (sampleVisual (some [idleState, walkState]) []) =
        some { sampleVisual (some [idleState, walkState]) [] with
          entity_ := { (sampleVisual (some [idleState, walkState]) []).entity_ with
            allAnimationStates := some ([idleState, walkState].set 1
              { walkState with loop := true, enabled := true }) }
          m_animationState := some 1 } ∧
      ([idleState, walkState].set 1 { walkState with loop := true, enabled := true }).length =
        [idleState, walkState].length ∧
      ([idleState, walkState].set 1 { walkState with loop := true, enabled := true })[1]? =
        some { walkState with loop := true, enabled := true } ∧
      ∀ j, j ≠ 1 →
        ([idleState, walkState].set 1 { walkState with loop := true, enabled := true })[j]? =
          [idleState, walkState][j]? :=
  setAnimationState_selects (sampleVisual (some [idleState, walkState]) [])
    [idleState, walkState] "walk" 0 1 walkState rfl (by decide) rfl
    (Or.inl ⟨rfl, fun j s' hj hs' => by
      have hj0 : j = 0 := by omega
      subst hj0
      simp only [List.getElem?_cons_zero, Option.some.injEq] at hs'
      subst hs'
      decide⟩)

/-- Where the two cases of C5 meet: in the set `(empty name), walk` the empty request
selects position 0, which is both the first state named by the request and the first
state of the set. -/
lemma setAnimationState_empty_name_meets :
    NameOrdered [unnamedState, walkState] ∧
      setAnimationState 1 "" (sampleVisual (some [unnamedState, walkState]) []) =
        some { sampleVisual (some [unnamedState, walkState]) [] with
          entity_ := { (sampleVisual (some [unnamedState, walkState]) []).entity_ with
            allAnimationStates :=
              some [{ unnamedState with loop := true, enabled := true }, walkState] }
          m_animationState := some 0 } :=
  ⟨by decide, setAnimationState_empty_name _ unnamedState [walkState] 0 rfl⟩

/-- C6 (amended): for a state set that is not NULL and not empty, and a name `n` that is
not empty and that no state of the set carries, `setAnimationState(n)` returns after one
recursive call, with the result of `setAnimationState("")`: `m_animationState` points
to the first state of the set and loop and enabled are true on it. -/
theorem setAnimationState_falls_back_to_first (v : MeshPersonVisual) (s0 : AnimationState)
    (rest : List AnimationState) (n : String) (fuel fuel' : Nat)
    (hs : v.entity_.allAnimationStates = some (s0 :: rest))
    (hn : n ≠ "")
    (hnot : ∀ s ∈ s0 :: rest, s.animationName ≠ n) :
    setAnimationState (fuel + 2) n v = setAnimationState (fuel' + 1) "" v ∧
      setAnimationState (fuel + 2) n v =
        some { v with
          entity_ := { v.entity_ with
            allAnimationStates := some ({ s0 with loop := true, enabled := true } :: rest) }
          m_animationState := some 0 } ∧
      setAnimationState 1 n v = none := by
  have hloop : selectLoop n (s0 :: rest) = none :=
    (selectLoop_eq_none_iff n (s0 :: rest)).2 (fun s hmem hc => hc.elim (hnot s hmem) hn)
  have hstep : ∀ k, setAnimationState (k + 1) n v = setAnimationState k "" v := by
    intro k
    simp [setAnimationState, hs, hloop]
  refine ⟨?_, ?_, ?_⟩
  · rw [hstep (fuel + 1), setAnimationState_empty_name v s0 rest fuel hs,
      setAnimationState_empty_name v s0 rest fuel' hs]
  · rw [hstep (fuel + 1), setAnimationState_empty_name v s0 rest fuel hs]
  · rw [hstep 0]; rfl

/-- Witness for C6: in the set `walk, idle` the request `run` ends on position 0. -/
theorem setAnimationState_falls_back_to_first_witness :
    setAnimationState 2 "run" (sampleVisual (some [walkState, idleState]) []) =
        setAnimationState 1 "" (sampleVisual (some [walkState, idleState]) []) ∧
      setAnimationState 2 "run" (sampleVisual (some [walkState, idleState]) []) =
        some { sampleVisual (some [walkState, idleState]) [] with
          entity_ := { (sampleVisual (some [walkState, idleState]) []).entity_ with
            allAnimationStates :=
              some ({ walkState with loop := true, enabled := true } :: [idleState]) }
          m_animationState := some 0 } ∧
      setAnimationState 1 "run" (sampleVisual (some [walkState, idleState]) []) = none :=
  setAnimationState_falls_back_to_first (sampleVisual (some [walkState, idleState]) [])
    walkState [idleState] "run" 0 0 rfl (by decide)
    (fun s hmem => by
      simp only [List.mem_cons, List.mem_singleton, List.not_mem_nil, or_false] at hmem
      rcases hmem with h | h <;> subst h <;> decide)

/-- C6 (as stated) fails on the empty set: with a state set that is not NULL and holds
no state, the request `run` never returns, whatever the number of activations allowed,
so `m_animationState` is never set. -/
theorem setAnimationState_missing_name_empty_set :
    ¬ ∃ (fuel : Nat) (v' : MeshPersonVisual),
      setAnimationState fuel "run" (sampleVisual (some []) []) = some v' := by
  have hE : ∀ m, setAnimationState m "" (sampleVisual (some []) []) = none := by
    intro m
    induction m with
    | zero => rfl
    | succ j ihj => simpa [setAnimationState, sampleVisual, selectLoop] using ihj
  rintro ⟨fuel, v', h⟩
  cases fuel with
  | zero => simp [setAnimationState] at h
  | succ k =>
    have hk : setAnimationState (k + 1) "run" (sampleVisual (some []) []) = none := by
      simpa [setAnimationState, sampleVisual, selectLoop] using hE k
    rw [hk] at h
    cases h

/-- C8 (the code at the failing input): when the state set is not NULL and holds no
state, `setAnimationState` does not return for any name and any number of activations:
each activation finds nothing and calls `setAnimationState("")` again. -/
theorem setAnimationState_empty_set_never_returns (v : MeshPersonVisual) (n : String)
    (fuel : Nat) (hs : v.entity_.allAnimationStates = some []) :
    setAnimationState fuel n v = none := by
  induction fuel generalizing n with
  | zero => rfl
  | succ k ih => simpa [setAnimationState, hs, selectLoop] using ih ""

/-- Witness for C8: the empty request on a visual whose entity has an empty state set. -/
theorem setAnimationState_empty_set_never_returns_witness :
    (sampleVisual (some []) []).entity_.allAnimationStates = some [] ∧
      setAnimationState 1000 "" (sampleVisual (some []) []) = none :=
  ⟨rfl, setAnimationState_empty_set_never_returns (sampleVisual (some []) []) "" 1000 rfl⟩

/-! ## Facts about the colouring loop -/

/-- Without a null entry the colouring loop finishes and has coloured every entry. -/
lemma setColorLoop_of_nonnull (c : ColourValue) (blending : SceneBlendType)
    (depth_write : Bool) :
    ∀ materials : List MaterialPtr, (∀ p ∈ materials, p ≠ none) →
      setColorLoop c blending depth_write materials =
        some (materials.map (Option.map (coloured c blending depth_write))) := by
  intro materials
  induction materials with
  | nil => intro _; rfl
  | cons p rest ih =>
    intro h
    have hrest := ih (fun q hq => h q (List.mem_cons_of_mem p hq))
    cases p with
    | none => exact absurd rfl (h none (List.mem_cons_self none rest))
    | some m => simp [setColorLoop, hrest, coloured]

/-- The colouring loop fails exactly when some entry is null. -/
lemma setColorLoop_eq_none_iff (c : ColourValue) (blending : SceneBlendType)
    (depth_write : Bool) (materials : List MaterialPtr) :
    setColorLoop c blending depth_write materials = none ↔ none ∈ materials := by
  induction materials with
  | nil => simp [setColorLoop]
  | cons p rest ih =>
    cases p with
    | none => simp [setColorLoop]
    | some m =>
      cases hr : setColorLoop c blending depth_write rest with
      | none => simp [setColorLoop, hr, ih.1 hr]
      | some r =>
        have hnot : none ∉ rest := fun hmem => by
          rw [ih.2 hmem] at hr; cases hr
        simp [setColorLoop, hr, hnot]

/-- What `setColor` returns on a material set without a null entry. -/
lemma setColor_of_nonnull (c : ColourValue) (v : MeshPersonVisual)
    (h : ∀ p ∈ v.materials_, p ≠ none) :
    setColor c v =
      some { v with
        materials_ :=
          v.materials_.map (Option.map (coloured c (blendingFor c).1 (blendingFor c).2)) } := by
  simp [setColor, setColorLoop_of_nonnull c _ _ v.materials_ h]

/-- Membership in a coloured material set. -/
lemma mem_coloured_iff (f : Material → Material) (materials : List MaterialPtr)
    (m' : Material) :
    some m' ∈ materials.map (Option.map f) ↔ ∃ m, some m ∈ materials ∧ f m = m' := by
  simp only [List.mem_map]
  constructor
  · rintro ⟨p, hp, hpm⟩
    cases p with
    | none => cases hpm
    | some m => exact ⟨m, hp, by simpa using hpm⟩
  · rintro ⟨m, hm, hf⟩
    exact ⟨some m, hm, by simp [hf]⟩

/-! ## Claims about setColor -/

/-- C2: for every colour `c` and every visual whose material set has no null entry,
`setColor(c)` returns, and afterwards every material of the set has on technique 0 the
ambient colour `(0.5*r, 0.5*g, 0.5*b)`, the diffuse colour `(r, g, b, a)` and lighting
enabled; the set holds the same materials (same names and receive-shadows flags, in the
same order, none null), and the walking speed, the selected animation state, the entity
and the child scene node are unchanged. -/
theorem setColor_colours_every_material (v : MeshPersonVisual) (c : ColourValue)
    (hnonnull : ∀ p ∈ v.materials_, p ≠ none) :
    ∃ v', setColor c v = some v' ∧
      (∀ m', some m' ∈ v'.materials_ →
        m'.technique0.ambient = (1 / 2 * c.r, 1 / 2 * c.g, 1 / 2 * c.b) ∧
        m'.technique0.diffuse = (c.r, c.g, c.b, c.a) ∧
        m'.technique0.lightingEnabled = true) ∧
      (∀ p ∈ v'.materials_, p ≠ none) ∧
      v'.materials_.map (Option.map Material.name) =
        v.materials_.map (Option.map Material.name) ∧
      v'.materials_.map (Option.map Material.receiveShadows) =
        v.materials_.map (Option.map Material.receiveShadows) ∧
      v'.m_walkingSpeed = v.m_walkingSpeed ∧
      v'.m_animationState = v.m_animationState ∧
      v'.entity_ = v.entity_ ∧
      v'.m_childSceneNode = v.m_childSceneNode := by
  refine ⟨_, setColor_of_nonnull c v hnonnull, ?_, ?_, ?_, ?_, rfl, rfl, rfl, rfl⟩
  · intro m' hm'
    obtain ⟨m, _, hm⟩ := (mem_coloured_iff _ _ m').1 hm'
    subst hm
    simp [coloured, colourTechnique, mul_comm]
  · intro p hp
    simp only [List.mem_map] at hp
    obtain ⟨q, hq, hqp⟩ := hp
    cases q with
    | none => exact absurd rfl (hnonnull none hq)
    | some m => subst hqp; simp
  · simp only [List.map_map]
    apply List.map_congr_left
    intro p _
    cases p <;> simp [coloured]
  · simp only [List.map_map]
    apply List.map_congr_left
    intro p _
    cases p <;> simp [coloured]

/-- Witness for C2: two materials, a half-transparent red. -/
theorem setColor_colours_every_material_witness :
    ∃ v', setColor { r := 1, g := 0, b := 0, a := 1 / 2 }
        (sampleVisual none [some sampleMaterial, some otherMaterial]) = some v' ∧
      (∀ m', some m' ∈ v'.materials_ →
        m'.technique0.ambient = (1 / 2 * (1 : ℚ), 1 / 2 * (0 : ℚ), 1 / 2 * (0 : ℚ)) ∧
        m'.technique0.diffuse = ((1 : ℚ), (0 : ℚ), (0 : ℚ), (1 / 2 : ℚ)) ∧
        m'.technique0.lightingEnabled = true) ∧
      (∀ p ∈ v'.materials_, p ≠ none) ∧
      v'.materials_.map (Option.map Material.name) =
        (sampleVisual none [some sampleMaterial, some otherMaterial]).materials_.map
          (Option.map Material.name) ∧
      v'.materials_.map (Option.map Material.receiveShadows) =
        (sampleVisual none [some sampleMaterial, some otherMaterial]).materials_.map
          (Option.map Material.receiveShadows) ∧
      v'.m_walkingSpeed =
        (sampleVisual none [some sampleMaterial, some otherMaterial]).m_walkingSpeed ∧
      v'.m_animationState =
        (sampleVisual none [some sampleMaterial, some otherMaterial]).m_animationState ∧
      v'.entity_ = (sampleVisual none [some sampleMaterial, some otherMaterial]).entity_ ∧
      v'.m_childSceneNode =
        (sampleVisual none [some sampleMaterial, some otherMaterial]).m_childSceneNode :=
  setColor_colours_every_material
    (sampleVisual none [some sampleMaterial, some otherMaterial])
    { r := 1, g := 0, b := 0, a := 1 / 2 }
    (fun p hp => by
      simp only [sampleVisual, List.mem_cons, List.mem_singleton, List.not_mem_nil,
        or_false] at hp
      rcases hp with h | h <;> subst h <;> simp)

/-- C3: for every colour `c` and every visual whose material set has no null entry,
`setColor(c)` returns with the same materials in the set (same names, same order, none
null), and every one of them then has scene blending transparent-alpha with depth
writing disabled exactly when `c.a < 0.9998`, and scene blending replace with depth
writing enabled exactly when not; so no material is left transparent with depth writing
on, or replacing with depth writing off. -/
theorem setColor_blending_threshold (v : MeshPersonVisual) (c : ColourValue)
    (hnonnull : ∀ p ∈ v.materials_, p ≠ none) :
    ∃ v', setColor c v = some v' ∧
      v'.materials_.map (Option.map Material.name) =
        v.materials_.map (Option.map Material.name) ∧
      (∀ p ∈ v'.materials_, p ≠ none) ∧
      (∀ (k : Nat) (m : Material), v.materials_[k]? = some (some m) →
        ∃ m' : Material, v'.materials_[k]? = some (some m') ∧ m'.name = m.name ∧
          m'.technique0.sceneBlending =
            (if c.a < 9998 / 10000 then SceneBlendType.SBT_TRANSPARENT_ALPHA
              else SceneBlendType.SBT_REPLACE) ∧
          m'.technique0.depthWriteEnabled = decide (¬ c.a < 9998 / 10000)) ∧
      ∀ m', some m' ∈ v'.materials_ →
        ((m'.technique0.sceneBlending = SceneBlendType.SBT_TRANSPARENT_ALPHA ∧
            m'.technique0.depthWriteEnabled = false) ↔ c.a < 9998 / 10000) ∧
        ((m'.technique0.sceneBlending = SceneBlendType.SBT_REPLACE ∧
            m'.technique0.depthWriteEnabled = true) ↔ ¬ c.a < 9998 / 10000) ∧
        (m'.technique0.sceneBlending = SceneBlendType.SBT_TRANSPARENT_ALPHA ∨
          m'.technique0.sceneBlending = SceneBlendType.SBT_REPLACE) ∧
        ¬ (m'.technique0.sceneBlending = SceneBlendType.SBT_TRANSPARENT_ALPHA ∧
            m'.technique0.depthWriteEnabled = true) ∧
        ¬ (m'.technique0.sceneBlending = SceneBlendType.SBT_REPLACE ∧
            m'.technique0.depthWriteEnabled = false) := by
  refine ⟨_, setColor_of_nonnull c v hnonnull, ?_, ?_, ?_, ?_⟩
  · simp only [List.map_map]
    apply List.map_congr_left
    intro p _
    cases p <;> simp [coloured]
  · intro p hp
    simp only [List.mem_map] at hp
    obtain ⟨q, hq, hqp⟩ := hp
    cases q with
    | none => exact absurd rfl (hnonnull none hq)
    | some m => subst hqp; simp
  · intro k m hk
    refine ⟨coloured c (blendingFor c).1 (blendingFor c).2 m, ?_, rfl, ?_, ?_⟩
    · simp [List.getElem?_map, hk]
    · by_cases ha : c.a < 9998 / 10000 <;> simp [coloured, colourTechnique, blendingFor, ha]
    · by_cases ha : c.a < 9998 / 10000 <;> simp [coloured, colourTechnique, blendingFor, ha]
  · intro m' hm'
    obtain ⟨m, _, hm⟩ := (mem_coloured_iff _ _ m').1 hm'
    subst hm
    by_cases ha : c.a < 9998 / 10000
    · simp [coloured, colourTechnique, blendingFor, ha]
    · simp [coloured, colourTechnique, blendingFor, ha]

/-- Witness for C3: an opaque colour on two materials, one of which was transparent. -/
theorem setColor_blending_threshold_witness :
    ∃ v', setColor { r := 1, g := 1, b := 0, a := 1 }
        (sampleVisual none [some sampleMaterial, some otherMaterial]) = some v' ∧
      v'.materials_.map (Option.map Material.name) = [some "m0", some "m1"] ∧
      ∀ m', some m' ∈ v'.materials_ →
        m'.technique0.sceneBlending = SceneBlendType.SBT_REPLACE ∧
          m'.technique0.depthWriteEnabled = true := by
  obtain ⟨v', hv', hnames, _, _, hall⟩ := setColor_blending_threshold
    (sampleVisual none [some sampleMaterial, some otherMaterial])
    { r := 1, g := 1, b := 0, a := 1 }
    (fun p hp => by
      simp only [sampleVisual, List.mem_cons, List.mem_singleton, List.not_mem_nil,
        or_false] at hp
      rcases hp with h | h <;> subst h <;> simp)
  refine ⟨v', hv', ?_, fun m' hm' => ?_⟩
  · rw [hnames]; rfl
  · exact ((hall m' hm').2.1).2 (by norm_num)

/-! ## Frame facts -/

/-- The method `setAnimationState` leaves everything but the entity's animation states and
`m_animationState` as it was. -/
lemma setAnimationState_frame :
    ∀ (fuel : Nat) (n : String) (v v' : MeshPersonVisual),
      setAnimationState fuel n v = some v' →
      v'.m_walkingSpeed = v.m_walkingSpeed ∧ v'.materials_ = v.materials_ ∧
      v'.entity_.name = v.entity_.name ∧ v'.m_childSceneNode = v.m_childSceneNode := by
  intro fuel
  induction fuel with
  | zero => intro n v v' h; simp [setAnimationState] at h
  | succ k ih =>
    intro n v v' h
    cases hs : v.entity_.allAnimationStates with
    | none =>
      simp only [setAnimationState, hs, Option.some.injEq] at h
      subst h
      exact ⟨rfl, rfl, rfl, rfl⟩
    | some states =>
      cases hl : selectLoop n states with
      | none =>
        simp only [setAnimationState, hs, hl] at h
        exact ih "" v v' h
      | some r =>
        obtain ⟨i, states'⟩ := r
        simp only [setAnimationState, hs, hl, Option.some.injEq] at h
        subst h
        exact ⟨rfl, rfl, rfl, rfl⟩

/-- On a state set that is NULL or not empty the method returns within two activations. -/
lemma setAnimationState_returns (v : MeshPersonVisual) (n : String) (fuel : Nat)
    (hs : v.entity_.allAnimationStates ≠ some []) :
    ∃ v', setAnimationState (fuel + 2) n v = some v' := by
  cases hst : v.entity_.allAnimationStates with
  | none => exact ⟨v, setAnimationState_null v n (fuel + 1) hst⟩
  | some states =>
    cases states with
    | nil => exact absurd hst hs
    | cons s rest =>
      cases hl : selectLoop n (s :: rest) with
      | none =>
        have hstep : setAnimationState (fuel + 2) n v = setAnimationState (fuel + 1) "" v := by
          simp [setAnimationState, hst, hl]
        rw [hstep, setAnimationState_empty_name v s rest fuel hst]
        exact ⟨_, rfl⟩
      | some r =>
        obtain ⟨i, states'⟩ := r
        simp only [setAnimationState, hst, hl]
        exact ⟨_, rfl⟩

/-- What a finished construction is made of. -/
lemma construct_eq_some (fuel : Nat) (rosPackageName : String) (meshIsNull : Bool)
    (meshAnimationStates : Option (List AnimationState)) (childSceneNode : String)
    (createdTechnique : Technique) (e : Engine) (v : MeshPersonVisual) (e' : Engine)
    (h : construct fuel rosPackageName meshIsNull meshAnimationStates childSceneNode
      createdTechnique e = some (v, e')) :
    v.m_walkingSpeed = 1 ∧
      v.entity_.name = entityName e.count ∧
      v.m_childSceneNode = childSceneNode ∧
      v.materials_ =
        [some { name := materialName e.count, receiveShadows := false,
                technique0 := { createdTechnique with
                  lightingEnabled := true, ambient := (1 / 2, 1 / 2, 1 / 2) } }] ∧
      e'.loadingListener = e.loadingListener ∧
      e'.count = (e.count + 1) % 2 ^ 64 ∧
      e'.materialNames = e.materialNames ++ [materialName e.count] ∧
      e'.calls = e.calls ++
        [EngineCall.setLoadingListener
            (some (ResourceLoadingListener.rosPackagePath (parentPath rosPackageName))),
          EngineCall.loadMeshFromResource (meshResource rosPackageName),
          EngineCall.setLoadingListener e.loadingListener,
          EngineCall.createEntity (entityName e.count) (meshResource rosPackageName),
          EngineCall.createMaterial (materialName e.count) "rviz",
          EngineCall.entitySetMaterial (entityName e.count) (materialName e.count)] := by
  unfold construct at h
  simp only at h
  split at h
  · cases h
  · rename_i v1 hv1
    obtain ⟨hw, hm, hn, hc⟩ := setAnimationState_frame _ _ _ _ hv1
    simp only [Option.some.injEq, Prod.mk.injEq] at h
    obtain ⟨hv, he⟩ := h
    subst hv
    subst he
    simp only [hm, insertMaterial]
    refine ⟨hw, hn, hc, ?_, ?_, ?_, ?_, ?_⟩ <;> simp [loadMesh, Engine.issue]

/-- A construction finishes when the entity's state set is NULL or not empty. -/
lemma construct_returns (fuel : Nat) (rosPackageName : String) (meshIsNull : Bool)
    (meshAnimationStates : Option (List AnimationState)) (childSceneNode : String)
    (createdTechnique : Technique) (e : Engine) (hs : meshAnimationStates ≠ some []) :
    ∃ v e', construct (fuel + 2) rosPackageName meshIsNull meshAnimationStates
      childSceneNode createdTechnique e = some (v, e') := by
  obtain ⟨v1, hv1⟩ := setAnimationState_returns
    { entity_ := { name := entityName (loadMesh rosPackageName meshIsNull e).1.count,
                   allAnimationStates := meshAnimationStates }
      m_animationState := none
      m_walkingSpeed := 1
      materials_ := []
      m_childSceneNode := childSceneNode } "" fuel hs
  unfold construct
  simp only [hv1]
  exact ⟨_, _, rfl⟩

/-- The selected state, spelled out. -/
lemma selectedState_eq_some (v : MeshPersonVisual) (a : AnimationState)
    (h : selectedState v = some a) :
    ∃ i states, v.m_animationState = some i ∧ v.entity_.allAnimationStates = some states ∧
      states[i]? = some a := by
  unfold selectedState at h
  split at h
  · rename_i i states hi hs
    exact ⟨i, states, hi, hs, h⟩
  · cases h

/-- The selected state after `update`. -/
lemma selectedState_update (v : MeshPersonVisual) (deltaTime : ℚ) (a : AnimationState)
    (h : selectedState v = some a) :
    selectedState (update deltaTime v) =
      some (a.addTime (7 / 10 * deltaTime * v.m_walkingSpeed)) := by
  obtain ⟨i, states, hi, hs, ha⟩ := selectedState_eq_some v a h
  simp [selectedState, update, hi, hs, ha]

/-- The material set of a finished construction has no null entry; `setAnimationState`
and `update` do not touch the set, and `setColor` keeps it free of null entries (see
C2), so no visual reached through this class holds a null entry. -/
lemma construct_materials_nonnull (fuel : Nat) (rosPackageName : String) (meshIsNull : Bool)
    (meshAnimationStates : Option (List AnimationState)) (childSceneNode : String)
    (createdTechnique : Technique) (e : Engine) (v : MeshPersonVisual) (e' : Engine)
    (h : construct fuel rosPackageName meshIsNull meshAnimationStates childSceneNode
      createdTechnique e = some (v, e')) :
    ∀ p ∈ v.materials_, p ≠ none := by
  obtain ⟨_, _, _, hmat, _⟩ :=
    construct_eq_some fuel rosPackageName meshIsNull meshAnimationStates childSceneNode
      createdTechnique e v e' h
  intro p hp
  rw [hmat] at hp
  simp only [List.mem_singleton] at hp
  subst hp
  simp

/-! ## Claims about update -/

/-- C1: `setWalkingSpeed(s)` stores `s` and nothing else; the constructor stores 1; no
other method changes the stored speed.  With an animation state selected,
`update(deltaTime)` moves that state's time by exactly `0.7 * deltaTime * speed` for the
stored speed, so after `setWalkingSpeed(s)` by `0.7 * deltaTime * s`: nothing for speed
0, twice as much for twice the speed; no other state, and no other member, changes.
With `m_animationState` NULL, `update` changes nothing. -/
theorem update_advances_by_speed (v : MeshPersonVisual) (deltaTime s : ℚ) :
    setWalkingSpeed s v = { v with m_walkingSpeed := s } ∧
    (∀ a, selectedState v = some a →
      selectedState (update deltaTime v) =
        some { a with
          timePosition := a.timePosition + 7 / 10 * deltaTime * v.m_walkingSpeed } ∧
      selectedState (update deltaTime (setWalkingSpeed s v)) =
        some { a with timePosition := a.timePosition + 7 / 10 * deltaTime * s } ∧
      selectedState (update deltaTime (setWalkingSpeed 0 v)) = some a ∧
      selectedState (update deltaTime (setWalkingSpeed (2 * s) v)) =
        some { a with timePosition := a.timePosition + 2 * (7 / 10 * deltaTime * s) }) ∧
    (v.m_animationState = none → update deltaTime v = v) ∧
    ((update deltaTime v).m_walkingSpeed = v.m_walkingSpeed ∧
      (update deltaTime v).m_animationState = v.m_animationState ∧
      (update deltaTime v).materials_ = v.materials_ ∧
      (update deltaTime v).entity_.name = v.entity_.name ∧
      (update deltaTime v).m_childSceneNode = v.m_childSceneNode ∧
      ∀ states, v.entity_.allAnimationStates = some states →
        ∃ states', (update deltaTime v).entity_.allAnimationStates = some states' ∧
          states'.length = states.length ∧
          ∀ j, v.m_animationState ≠ some j → states'[j]? = states[j]?) ∧
    (∀ c v', setColor c v = some v' → v'.m_walkingSpeed = v.m_walkingSpeed) ∧
    (∀ fuel n v', setAnimationState fuel n v = some v' →
      v'.m_walkingSpeed = v.m_walkingSpeed) ∧
    (∀ fuel rosPackageName meshIsNull meshAnimationStates childSceneNode createdTechnique
        e v0 e',
      construct fuel rosPackageName meshIsNull meshAnimationStates childSceneNode
        createdTechnique e = some (v0, e') → v0.m_walkingSpeed = 1) := by
  refine ⟨rfl, ?_, ?_, ?_, ?_, ?_, ?_⟩
  · intro a ha
    have hset : ∀ w, selectedState (setWalkingSpeed w v) = some a := fun w => ha
    refine ⟨selectedState_update v deltaTime a ha, ?_, ?_, ?_⟩
    · exact selectedState_update (setWalkingSpeed s v) deltaTime a (hset s)
    · rw [selectedState_update (setWalkingSpeed 0 v) deltaTime a (hset 0)]
      cases a
      simp [AnimationState.addTime, setWalkingSpeed]
    · rw [selectedState_update (setWalkingSpeed (2 * s) v) deltaTime a (hset (2 * s))]
      cases a
      simp only [AnimationState.addTime, setWalkingSpeed, Option.some.injEq,
        AnimationState.mk.injEq, true_and]
      ring
  · intro hnone
    simp [update, hnone]
  · refine ⟨?_, ?_, ?_, ?_, ?_, ?_⟩
    · unfold update; split <;> rfl
    · unfold update; split <;> rfl
    · unfold update; split <;> rfl
    · unfold update; split <;> rfl
    · unfold update; split <;> rfl
    · intro states hs
      cases hsel : v.m_animationState with
      | none => exact ⟨states, by simp [update, hsel, hs], rfl, fun _ _ => rfl⟩
      | some i =>
        refine ⟨_, by simp only [update, hsel, hs, Option.map_some']; rfl, by simp, ?_⟩
        intro j hj
        have hne : i ≠ j := fun hij => hj (by rw [hij])
        simp [List.getElem?_modify_ne _ _ hne]
  · intro c v' h
    unfold setColor at h
    split at h
    · cases h
    · simp only [Option.some.injEq] at h
      subst h
      rfl
  · intro fuel n v' h
    exact (setAnimationState_frame fuel n v v' h).1
  · intro fuel pkg isNull states node t e v0 e' h
    exact (construct_eq_some fuel pkg isNull states node t e v0 e' h).1

/-- Witness for C1: the state `idle` at time 3 is selected; after `setWalkingSpeed(3)`,
`update(2)` leaves it at `3 + 0.7 * 2 * 3`. -/
theorem update_advances_by_speed_witness :
    selectedState (update 2 (setWalkingSpeed 3
        { sampleVisual (some [walkState, idleState]) [] with m_animationState := some 1 })) =
      some { idleState with timePosition := idleState.timePosition + 7 / 10 * 2 * 3 } :=
  ((update_advances_by_speed
    { sampleVisual (some [walkState, idleState]) [] with m_animationState := some 1 }
    2 3).2.1 idleState rfl).2.1

end MeshPersonVisual

/-! ## Facts about names -/

lemma charDigit_digitChar (d : Nat) (h : d < 10) : charDigit (digitChar d) = d := by
  interval_cases d <;> rfl

/-- Digit lists are recovered from their characters. -/
lemma map_digitChar_cancel (l : List Nat) (h : ∀ d ∈ l, d < 10) :
    (l.map digitChar).map charDigit = l := by
  induction l with
  | nil => rfl
  | cons d rest ih =>
    simp only [List.map_cons]
    rw [charDigit_digitChar d (h d (List.mem_cons_self d rest)),
      ih (fun x hx => h x (List.mem_cons_of_mem d hx))]

/-- The digits of a number, most significant first, are recovered from its decimal text
when the number is not zero. -/
lemma decimal_digits (n : Nat) (hn : n ≠ 0) :
    (decimal n).data.map charDigit = (Nat.digits 10 n).reverse := by
  have hlt : ∀ d ∈ (Nat.digits 10 n).reverse, d < 10 := fun d hd =>
    Nat.digits_lt_base (by norm_num) (List.mem_reverse.1 hd)
  simp only [decimal, if_neg hn]
  exact map_digitChar_cancel _ hlt

/-- Two numbers with the same decimal text are equal. -/
lemma decimal_injective : Function.Injective decimal := by
  intro n m h
  have key : ∀ k : Nat, k ≠ 0 → decimal k ≠ decimal 0 := by
    intro k hk hc
    have h1 := decimal_digits k hk
    rw [hc] at h1
    have h2 : Nat.digits 10 k = [0] := by
      have h3 : (Nat.digits 10 k).reverse = [0] := by rw [← h1]; rfl
      have h4 := congrArg List.reverse h3
      simpa using h4
    have h5 := Nat.ofDigits_digits 10 k
    rw [h2] at h5
    exact hk (by simpa [Nat.ofDigits] using h5.symm)
  by_cases hn : n = 0
  · by_cases hm : m = 0
    · rw [hn, hm]
    · subst hn
      exact absurd h.symm (key m hm)
  · by_cases hm : m = 0
    · subst hm
      exact absurd h (key n hn)
    · have h1 := decimal_digits n hn
      rw [h, decimal_digits m hm] at h1
      exact (Nat.digits_inj_iff.1 (List.reverse_injective h1)).symm

lemma entityName_injective : Function.Injective entityName := by
  intro i j h
  apply decimal_injective
  have hd := congrArg String.data h
  simp only [entityName, String.data_append] at hd
  exact String.ext (List.append_cancel_left hd)

lemma materialName_injective : Function.Injective materialName := by
  intro i j h
  apply entityName_injective
  have hd := congrArg String.data h
  simp only [materialName, String.data_append] at hd
  exact String.ext (List.append_cancel_right hd)

namespace MeshPersonVisual

/-! ## Claims about the constructor -/

/-- C4: the entity name and the material name built for counter value `i` differ from
those built for any other counter value `j`.  A construction started with the counter
at `n` names its entity `mesh_person_visual` followed by the decimal text of `n`, gives
its material set the single material of that name followed by `Material`, registers
that name with the material manager, and leaves the counter at `n + 1` (when that does
not overflow the 64-bit counter).  Constructions finish whenever the entity's
animation state set is NULL or not empty. -/
theorem construct_names_per_instance (i j : Nat) (hij : i ≠ j) :
    entityName i ≠ entityName j ∧ materialName i ≠ materialName j ∧
    (∀ fuel rosPackageName meshIsNull meshAnimationStates childSceneNode createdTechnique
        e v e',
      construct fuel rosPackageName meshIsNull meshAnimationStates childSceneNode
        createdTechnique e = some (v, e') →
      v.entity_.name = "mesh_person_visual" ++ decimal e.count ∧
      (∃ m, v.materials_ = [some m] ∧
        m.name = "mesh_person_visual" ++ decimal e.count ++ "Material") ∧
      EngineCall.createEntity ("mesh_person_visual" ++ decimal e.count)
        (meshResource rosPackageName) ∈ e'.calls ∧
      EngineCall.createMaterial ("mesh_person_visual" ++ decimal e.count ++ "Material")
        "rviz" ∈ e'.calls ∧
      e'.materialNames =
        e.materialNames ++ ["mesh_person_visual" ++ decimal e.count ++ "Material"] ∧
      e'.count = (e.count + 1) % 2 ^ 64 ∧
      (e.count + 1 < 2 ^ 64 → e'.count = e.count + 1)) ∧
    (∀ fuel rosPackageName meshIsNull meshAnimationStates childSceneNode createdTechnique e,
      meshAnimationStates ≠ some [] →
      ∃ v e', construct (fuel + 2) rosPackageName meshIsNull meshAnimationStates
        childSceneNode createdTechnique e = some (v, e')) ∧
    freshEngine.count = 0 := by
  refine ⟨fun h => hij (entityName_injective h), fun h => hij (materialName_injective h),
    ?_, ?_, rfl⟩
  · intro fuel pkg isNull states node t e v e' h
    obtain ⟨_, hname, _, hmat, _, hcount, hnames, hcalls⟩ :=
      construct_eq_some fuel pkg isNull states node t e v e' h
    refine ⟨hname, ⟨_, hmat, rfl⟩, ?_, ?_, hnames, hcount, ?_⟩
    · rw [hcalls]; simp [entityName]
    · rw [hcalls]; simp [materialName, entityName]
    · intro hlt
      rw [hcount, Nat.mod_eq_of_lt hlt]
  · intro fuel pkg isNull states node t e hs
    exact construct_returns fuel pkg isNull states node t e hs

/-- Witness for C4: counter values 0 and 1. -/
theorem construct_names_per_instance_witness :
    entityName 0 ≠ entityName 1 ∧ materialName 0 ≠ materialName 1 :=
  ⟨(construct_names_per_instance 0 1 (by decide)).1,
    (construct_names_per_instance 0 1 (by decide)).2.1⟩

/-- C9: lines 69-80 leave the loading listener of the resource group manager as they
found it, whatever it was and whatever the mesh loader answered; the calls they issue
are: install the package-path listener, load the mesh, install the previous listener.
In a finished construction the listener is again the previous one, and the
package-path listener is the installed one only while the mesh is loaded and up to the
call that puts the previous listener back. -/
theorem construct_restores_loading_listener (e : Engine) (rosPackageName : String)
    (meshIsNull : Bool) :
    (loadMesh rosPackageName meshIsNull e).1.loadingListener = e.loadingListener ∧
    (loadMesh rosPackageName meshIsNull e).2 = meshIsNull ∧
    (loadMesh rosPackageName meshIsNull e).1.calls = e.calls ++
      [EngineCall.setLoadingListener
          (some (ResourceLoadingListener.rosPackagePath (parentPath rosPackageName))),
        EngineCall.loadMeshFromResource (meshResource rosPackageName),
        EngineCall.setLoadingListener e.loadingListener] ∧
    installedAt e.loadingListener
        ((loadMesh rosPackageName meshIsNull e).1.calls.drop e.calls.length) =
      [(e.loadingListener, EngineCall.setLoadingListener
          (some (ResourceLoadingListener.rosPackagePath (parentPath rosPackageName)))),
        (some (ResourceLoadingListener.rosPackagePath (parentPath rosPackageName)),
          EngineCall.loadMeshFromResource (meshResource rosPackageName)),
        (some (ResourceLoadingListener.rosPackagePath (parentPath rosPackageName)),
          EngineCall.setLoadingListener e.loadingListener)] ∧
    (∀ fuel meshAnimationStates childSceneNode createdTechnique v e',
      construct fuel rosPackageName meshIsNull meshAnimationStates childSceneNode
        createdTechnique e = some (v, e') →
      e'.loadingListener = e.loadingListener ∧
      ∃ issued, e'.calls = e.calls ++ issued ∧
        installedAt e.loadingListener issued =
          [(e.loadingListener, EngineCall.setLoadingListener
              (some (ResourceLoadingListener.rosPackagePath (parentPath rosPackageName)))),
            (some (ResourceLoadingListener.rosPackagePath (parentPath rosPackageName)),
              EngineCall.loadMeshFromResource (meshResource rosPackageName)),
            (some (ResourceLoadingListener.rosPackagePath (parentPath rosPackageName)),
              EngineCall.setLoadingListener e.loadingListener),
            (e.loadingListener,
              EngineCall.createEntity (entityName e.count) (meshResource rosPackageName)),
            (e.loadingListener, EngineCall.createMaterial (materialName e.count) "rviz"),
            (e.loadingListener,
              EngineCall.entitySetMaterial (entityName e.count) (materialName e.count))]) := by
  refine ⟨by simp [loadMesh, Engine.issue], rfl, by simp [loadMesh, Engine.issue],
    by simp [loadMesh, Engine.issue, installedAt], ?_⟩
  intro fuel states node t v e' h
  obtain ⟨_, _, _, _, hl, _, _, hcalls⟩ :=
    construct_eq_some fuel rosPackageName meshIsNull states node t e v e' h
  exact ⟨hl, _, hcalls, by simp [installedAt]⟩

/-- Witness for C9: a construction that starts with a foreign listener installed. -/
theorem construct_restores_loading_listener_witness :
    ∃ v e', construct 1 "pkg" true (some [walkState]) "node0" sampleTechnique
        { freshEngine with loadingListener := some (ResourceLoadingListener.foreign 7) } =
          some (v, e') ∧
      e'.loadingListener = some (ResourceLoadingListener.foreign 7) := by
  obtain ⟨v, e', h⟩ : ∃ v e', construct 1 "pkg" true (some [walkState]) "node0"
      sampleTechnique
      { freshEngine with loadingListener := some (ResourceLoadingListener.foreign 7) } =
        some (v, e') := ⟨_, _, rfl⟩
  exact ⟨v, e', h,
    ((construct_restores_loading_listener
      { freshEngine with loadingListener := some (ResourceLoadingListener.foreign 7) }
      "pkg" true).2.2.2.2 1 (some [walkState]) "node0" sampleTechnique v e' h).1⟩

/-! ## Claims about the destructor -/

/-- Every call is appended to the log. -/
lemma Engine.issue_calls (c : EngineCall) (e : Engine) :
    (e.issue c).calls = e.calls ++ [c] := by
  cases c <;> rfl

/-- The loop of the destructor logs the calls of each entry in turn. -/
lemma destroyMaterials_calls :
    ∀ (materials : List MaterialPtr) (e : Engine),
      (destroyMaterials materials e).calls = e.calls ++ materials.flatMap materialCalls := by
  intro materials
  induction materials with
  | nil => intro e; simp [destroyMaterials]
  | cons p rest ih =>
    intro e
    cases p with
    | none => rw [destroyMaterials, ih]; simp [materialCalls]
    | some m =>
      rw [destroyMaterials, ih, Engine.issue_calls, Engine.issue_calls]
      simp [materialCalls]

/-- The loop of the destructor leaves in the material manager the names no entry
carries. -/
lemma destroyMaterials_materialNames :
    ∀ (materials : List MaterialPtr) (e : Engine) (n : String),
      n ∈ (destroyMaterials materials e).materialNames ↔
        n ∈ e.materialNames ∧ ∀ m, some m ∈ materials → n ≠ m.name := by
  intro materials
  induction materials with
  | nil => intro e n; simp [destroyMaterials]
  | cons p rest ih =>
    intro e n
    cases p with
    | none => rw [destroyMaterials, ih]; simp
    | some m =>
      rw [destroyMaterials, ih]
      simp only [Engine.issue, List.mem_filter, decide_eq_true_eq, List.mem_cons,
        Option.some.injEq, forall_eq_or_imp]
      constructor
      · rintro ⟨⟨h1, h2⟩, h3⟩
        exact ⟨h1, h2, h3⟩
      · rintro ⟨h1, h2, h3⟩
        exact ⟨⟨h1, h2⟩, h3⟩

/-- C7: the destructor always finishes; for every entry of the material set that is not
null it has issued `unload` on that material and `remove` of its name on the material
manager, and the name is no longer registered there; a null entry causes no call at all
(the run equals the run on the set without its null entries); at the end the visual's
material set is empty. -/
theorem destruct_destroys_materials (v : MeshPersonVisual) (e : Engine) :
    (destruct v e).1.materials_ = [] ∧
    (destruct v e).2.calls =
      e.calls ++ [EngineCall.destroyEntity v.entity_.name] ++
        v.materials_.flatMap materialCalls ++
        [EngineCall.destroySceneNode v.m_childSceneNode] ∧
    (∀ m, some m ∈ v.materials_ →
      EngineCall.materialUnload m.name ∈ (destruct v e).2.calls.drop e.calls.length ∧
      EngineCall.materialManagerRemove m.name ∈ (destruct v e).2.calls.drop e.calls.length ∧
      m.name ∉ (destruct v e).2.materialNames) ∧
    materialCalls none = [] ∧
    (destruct v e).2 =
      (destruct { v with materials_ := v.materials_.filter Option.isSome } e).2 := by
  have hcalls : (destruct v e).2.calls =
      e.calls ++ [EngineCall.destroyEntity v.entity_.name] ++
        v.materials_.flatMap materialCalls ++
        [EngineCall.destroySceneNode v.m_childSceneNode] := by
    simp only [destruct, Engine.issue_calls, destroyMaterials_calls]
  refine ⟨rfl, hcalls, ?_, rfl, ?_⟩
  · intro m hm
    have hdrop : (destruct v e).2.calls.drop e.calls.length =
        [EngineCall.destroyEntity v.entity_.name] ++
          v.materials_.flatMap materialCalls ++
          [EngineCall.destroySceneNode v.m_childSceneNode] := by
      rw [hcalls]
      simp [List.append_assoc]
    refine ⟨?_, ?_, ?_⟩
    · rw [hdrop]
      simp only [List.mem_append, List.mem_flatMap]
      exact Or.inl (Or.inr ⟨some m, hm, by simp [materialCalls]⟩)
    · rw [hdrop]
      simp only [List.mem_append, List.mem_flatMap]
      exact Or.inl (Or.inr ⟨some m, hm, by simp [materialCalls]⟩)
    · intro hmem
      have hmem' : m.name ∈ (destroyMaterials v.materials_
          (e.issue (EngineCall.destroyEntity v.entity_.name))).materialNames := hmem
      exact ((destroyMaterials_materialNames _ _ _).1 hmem').2 m hm rfl
  · have hfilter : ∀ (ms : List MaterialPtr) (e0 : Engine),
        destroyMaterials (ms.filter Option.isSome) e0 = destroyMaterials ms e0 := by
      intro ms
      induction ms with
      | nil => intro e0; rfl
      | cons p rest ih =>
        intro e0
        cases p with
        | none => simpa [destroyMaterials] using ih e0
        | some m => simp [destroyMaterials, ih]
    simp only [destruct, hfilter]

/-- Witness for C7: a set with two materials and a null entry in between. -/
theorem destruct_destroys_materials_witness :
    EngineCall.materialUnload otherMaterial.name ∈
        (destruct (sampleVisual none [some sampleMaterial, none, some otherMaterial])
          { freshEngine with materialNames := ["m0", "m1", "m2"] }).2.calls.drop
            ({ freshEngine with materialNames := ["m0", "m1", "m2"] } : Engine).calls.length ∧
      EngineCall.materialManagerRemove otherMaterial.name ∈
        (destruct (sampleVisual none [some sampleMaterial, none, some otherMaterial])
          { freshEngine with materialNames := ["m0", "m1", "m2"] }).2.calls.drop
            ({ freshEngine with materialNames := ["m0", "m1", "m2"] } : Engine).calls.length ∧
      otherMaterial.name ∉
        (destruct (sampleVisual none [some sampleMaterial, none, some otherMaterial])
          { freshEngine with materialNames := ["m0", "m1", "m2"] }).2.materialNames :=
  (destruct_destroys_materials
    (sampleVisual none [some sampleMaterial, none, some otherMaterial])
    { freshEngine with materialNames := ["m0", "m1", "m2"] }).2.2.1 otherMaterial
      (by simp [sampleVisual])

end MeshPersonVisual

end framesoft_tracking_rviz_plugin
